import Mathlib

/-!
Shallow embedding of `jsminor.mjs` (a minimal static-file HTTP server with a
WebSocket liveness monitor) and proofs about its connection lifecycle,
request handling, asset cache and content classification.

Conventions of the embedding:
* JS `Buffer` contents are modelled as `List Nat` (byte values).
* A JS `Error` is modelled by its `message` string.
* Node's `path.extname` / `path.basename` (posix) are modelled by a direct
  transcription of their scanning loops.
* Side effects (log calls, probe sends, handler dispatches, frames written
  to the socket) are returned explicitly as a `List Effect`.
-/

/-- Byte buffer contents (JS `Buffer`), as a list of byte values. -/
abbrev Bytes := List Nat

/-- A JS `Error` object, reduced to the one attribute the code reads. -/
structure JsError where
  message : String
deriving DecidableEq

/-- Model of JS `String.prototype.toLowerCase`, as a per-character map. -/
def jsToLowerCase (s : String) : String :=
  String.mk (s.toList.map Char.toLower)

/-- Model of JS `String.prototype.slice(1)`: drop the first character. -/
def jsSliceOne (s : String) : String :=
  String.mk (s.toList.drop 1)

/-- Model of JS `String.prototype.endsWith`. -/
def jsEndsWith (s suffix : String) : Bool :=
  suffix.toList.isSuffixOf s.toList

/-- Model of `String.prototype.includes`: prefix test at each suffix. -/
def hasSubstrAux (pat : List Char) : List Char → Bool
  | [] => pat.isEmpty
  | c :: rest => pat.isPrefixOf (c :: rest) || hasSubstrAux pat rest

/-- `hasSubstr s pat` models JS `s.includes(pat)`. -/
def hasSubstr (s pat : String) : Bool :=
  hasSubstrAux pat.toList s.toList

/-- Scanner state of Node posix `path.extname` (sentinel `-1` becomes `none`). -/
structure ExtScanState where
  startDot : Option Nat
  startPart : Nat
  endIdx : Option Nat
  matchedSlash : Bool
  preDotState : Int
deriving DecidableEq

/-- The right-to-left scanning loop of Node posix `path.extname`;
`i` is one past the index to be examined next. -/
def extnameLoop (cs : List Char) : Nat → ExtScanState → ExtScanState
  | 0, st => st
  | i + 1, st =>
    let c := cs.getD i ' '
    if c = '/' then
      if st.matchedSlash then extnameLoop cs i st
      else { st with startPart := i + 1 }
    else
      let st1 :=
        if st.endIdx = none then { st with matchedSlash := false, endIdx := some (i + 1) }
        else st
      let st2 :=
        if c = '.' then
          if st1.startDot = none then { st1 with startDot := some i }
          else if st1.preDotState ≠ 1 then { st1 with preDotState := 1 }
          else st1
        else if st1.startDot ≠ none then { st1 with preDotState := -1 }
        else st1
      extnameLoop cs i st2

/-- Node posix `path.extname`. -/
def extname (p : String) : String :=
  let cs := p.toList
  let st := extnameLoop cs cs.length ⟨none, 0, none, true, 0⟩
  match st.startDot, st.endIdx with
  | some sd, some en =>
    if st.preDotState = 0 ∨
       (st.preDotState = 1 ∧ sd + 1 = en ∧ sd = st.startPart + 1) then ""
    else String.mk ((cs.drop sd).take (en - sd))
  | _, _ => ""

/-- The right-to-left scanning loop of Node posix `path.basename` (one-argument
form); returns the final `(start, end)` slice bounds. -/
def basenameLoop (cs : List Char) : Nat → Nat → Option Nat → Bool → Nat × Option Nat
  | 0, start, endIdx, _ => (start, endIdx)
  | i + 1, start, endIdx, matchedSlash =>
    if cs.getD i ' ' = '/' then
      if matchedSlash then basenameLoop cs i start endIdx matchedSlash
      else (i + 1, endIdx)
    else
      if endIdx = none then basenameLoop cs i start (some (i + 1)) false
      else basenameLoop cs i start endIdx matchedSlash

/-- Node posix `path.basename` (one-argument form). -/
def basename (p : String) : String :=
  let cs := p.toList
  let r := basenameLoop cs cs.length 0 none true
  match r.2 with
  | none => ""
  | some en => String.mk ((cs.drop r.1).take (en - r.1))

/-- The `ext` binding of `fileToContentType`:
`path.extname(fileName).toLowerCase().slice(1)`. -/
def fileExt (fileName : String) : String :=
  jsSliceOne (jsToLowerCase (extname fileName))

/-- `fileToContentType` from jsminor.mjs: derive the response head object
(`[("Content-Type", t)]`) from the file extension. -/
def fileToContentType (fileName : String) : List (String × String) :=
  let ext := fileExt fileName
  let cType :=
    if ext = "js" then "application/javascript"
    else if ext = "txt" then "text/plain"
    else if ext = "gif" then "image/gif"
    else if ext = "jpg" ∨ ext = "jpeg" then "image/jpeg"
    else if ext = "png" then "image/png"
    else if ext = "pdf" then "application/pdf"
    else if ext = "zip" then "application/zip"
    else if ext = "mp3" then "audio/mpeg"
    else if ext = "wav" then "audio/x-wav"
    else "text/" ++ (if ext = "" then "plain" else ext)
  [("Content-Type", cType)]

/-- The opening curly brace character. -/
def lbraceChar : Char := Char.ofNat 123

/-- The closing curly brace character. -/
def rbraceChar : Char := Char.ofNat 125

/-- A JSON value. Numbers are kept as their source lexeme, so no floating
point semantics enter the model. -/
inductive Json where
  | null
  | bool (b : Bool)
  | num (lexeme : String)
  | str (s : String)
  | arr (elems : List Json)
  | obj (members : List (String × Json))

/-- Escape one character for a JSON string literal. -/
def jsonEscapeChar (c : Char) : String :=
  if c = '"' then "\\\""
  else if c = '\\' then "\\\\"
  else if c = '\n' then "\\n"
  else if c = '\r' then "\\r"
  else if c = '\t' then "\\t"
  else String.singleton c

/-- Quote a string as a JSON string literal. -/
def jsonQuote (s : String) : String :=
  "\"" ++ String.join (s.toList.map jsonEscapeChar) ++ "\""

mutual

/-- Model of `JSON.stringify` on a `Json` value. -/
def stringify : Json → String
  | .null => "null"
  | .bool true => "true"
  | .bool false => "false"
  | .num lx => lx
  | .str s => jsonQuote s
  | .arr xs => "[" ++ stringifyElems xs ++ "]"
  | .obj ms => String.singleton lbraceChar ++ stringifyMembers ms ++ String.singleton rbraceChar

/-- Comma-separated serialization of array elements. -/
def stringifyElems : List Json → String
  | [] => ""
  | [x] => stringify x
  | x :: y :: rest => stringify x ++ "," ++ stringifyElems (y :: rest)

/-- Comma-separated serialization of object members. -/
def stringifyMembers : List (String × Json) → String
  | [] => ""
  | [(k, v)] => jsonQuote k ++ ":" ++ stringify v
  | (k, v) :: m :: rest => jsonQuote k ++ ":" ++ stringify v ++ "," ++ stringifyMembers (m :: rest)

end

/-- Skip JSON whitespace. -/
def skipWs : List Char → List Char
  | [] => []
  | c :: rest => if c = ' ' ∨ c = '\t' ∨ c = '\n' ∨ c = '\r' then skipWs rest else c :: rest

/-- Value of a hexadecimal digit. -/
def hexVal (c : Char) : Option Nat :=
  if '0' ≤ c ∧ c ≤ '9' then some (c.toNat - '0'.toNat)
  else if 'a' ≤ c ∧ c ≤ 'f' then some (c.toNat - 'a'.toNat + 10)
  else if 'A' ≤ c ∧ c ≤ 'F' then some (c.toNat - 'A'.toNat + 10)
  else none

/-- Parse the body of a JSON string literal (opening quote already
consumed), accumulating characters in reverse. -/
def parseStringBody : Nat → List Char → List Char → Option (String × List Char)
  | 0, _, _ => none
  | _ + 1, _, [] => none
  | fuel + 1, acc, c :: rest =>
    if c = '"' then some (String.mk acc.reverse, rest)
    else if c = '\\' then
      match rest with
      | [] => none
      | e :: rest2 =>
        if e = '"' then parseStringBody fuel ('"' :: acc) rest2
        else if e = '\\' then parseStringBody fuel ('\\' :: acc) rest2
        else if e = '/' then parseStringBody fuel ('/' :: acc) rest2
        else if e = 'b' then parseStringBody fuel (Char.ofNat 8 :: acc) rest2
        else if e = 'f' then parseStringBody fuel (Char.ofNat 12 :: acc) rest2
        else if e = 'n' then parseStringBody fuel ('\n' :: acc) rest2
        else if e = 'r' then parseStringBody fuel ('\r' :: acc) rest2
        else if e = 't' then parseStringBody fuel ('\t' :: acc) rest2
        else if e = 'u' then
          match rest2 with
          | h1 :: h2 :: h3 :: h4 :: rest3 =>
            match hexVal h1, hexVal h2, hexVal h3, hexVal h4 with
            | some a, some b, some c2, some d =>
              parseStringBody fuel (Char.ofNat (((a * 16 + b) * 16 + c2) * 16 + d) :: acc) rest3
            | _, _, _, _ => none
          | _ => none
        else none
    else if c.toNat < 32 then none
    else parseStringBody fuel (c :: acc) rest

/-- Parse a JSON number, returning its lexeme. -/
def parseNumber (cs : List Char) : Option (String × List Char) :=
  let signedTail := match cs with
    | '-' :: rest => ("-", rest)
    | _ => ("", cs)
  let sign := signedTail.1
  let cs1 := signedTail.2
  match cs1 with
  | [] => none
  | c :: rest =>
    if ¬ c.isDigit then none
    else
      let intTail :=
        if c = '0' then ("0", rest)
        else (String.mk ((c :: rest).takeWhile (fun ch : Char => ch.isDigit)),
              (c :: rest).dropWhile (fun ch : Char => ch.isDigit))
      let intPart := intTail.1
      let cs2 := intTail.2
      let nextIsDigit : Bool := match rest with | d :: _ => d.isDigit | [] => false
      if c = '0' ∧ nextIsDigit then none
      else
        let fracTail :=
          match cs2 with
          | '.' :: f :: frest =>
            if f.isDigit then
              ("." ++ String.mk ((f :: frest).takeWhile (fun ch : Char => ch.isDigit)),
               (f :: frest).dropWhile (fun ch : Char => ch.isDigit))
            else ("", cs2)
          | _ => ("", cs2)
        let fracPart := fracTail.1
        let cs3 := fracTail.2
        let expTail :=
          match cs3 with
          | e :: s :: srest =>
            if e = 'e' ∨ e = 'E' then
              let sgnTail := if s = '+' ∨ s = '-' then (String.singleton s, srest) else ("", s :: srest)
              match sgnTail.2 with
              | d :: _ =>
                if d.isDigit then
                  (String.singleton e ++ sgnTail.1 ++
                     String.mk (sgnTail.2.takeWhile (fun ch : Char => ch.isDigit)),
                   sgnTail.2.dropWhile (fun ch : Char => ch.isDigit))
                else ("", cs3)
              | [] => ("", cs3)
            else ("", cs3)
          | _ => ("", cs3)
        some (sign ++ intPart ++ fracPart ++ expTail.1, expTail.2)

/-- Strip a literal keyword from the front of the input. -/
def stripLit (lit : List Char) (cs : List Char) : Option (List Char) :=
  if lit.isPrefixOf cs then some (cs.drop lit.length) else none

mutual

/-- Fueled recursive-descent parser for a JSON value. -/
def parseVal : Nat → List Char → Option (Json × List Char)
  | 0, _ => none
  | fuel + 1, cs0 =>
    let cs := skipWs cs0
    match cs with
    | [] => none
    | c :: rest =>
      if c = '"' then
        match parseStringBody (rest.length + 1) [] rest with
        | some (s, r) => some (.str s, r)
        | none => none
      else if c = lbraceChar then parseObjBody fuel true [] rest
      else if c = '[' then parseArrBody fuel true [] rest
      else if c = 'n' then (stripLit ['n', 'u', 'l', 'l'] cs).map (fun r => (.null, r))
      else if c = 't' then (stripLit ['t', 'r', 'u', 'e'] cs).map (fun r => (.bool true, r))
      else if c = 'f' then (stripLit ['f', 'a', 'l', 's', 'e'] cs).map (fun r => (.bool false, r))
      else
        match parseNumber cs with
        | some (lx, r) => some (.num lx, r)
        | none => none

/-- Parse the remainder of a JSON array (opening bracket consumed). -/
def parseArrBody : Nat → Bool → List Json → List Char → Option (Json × List Char)
  | 0, _, _, _ => none
  | fuel + 1, isFirst, acc, cs0 =>
    let cs := skipWs cs0
    match cs with
    | ']' :: rest => if isFirst then some (.arr acc.reverse, rest) else none
    | _ =>
      match parseVal fuel cs with
      | none => none
      | some (v, r1) =>
        match skipWs r1 with
        | ']' :: r2 => some (.arr (v :: acc).reverse, r2)
        | ',' :: r2 => parseArrBody fuel false (v :: acc) r2
        | _ => none

/-- Parse the remainder of a JSON object (opening brace consumed). -/
def parseObjBody : Nat → Bool → List (String × Json) → List Char → Option (Json × List Char)
  | 0, _, _, _ => none
  | fuel + 1, isFirst, acc, cs0 =>
    let cs := skipWs cs0
    match cs with
    | [] => none
    | c :: rest =>
      if c = rbraceChar then
        if isFirst then some (.obj acc.reverse, rest) else none
      else if c = '"' then
        match parseStringBody (rest.length + 1) [] rest with
        | none => none
        | some (k, r1) =>
          match skipWs r1 with
          | ':' :: r2 =>
            match parseVal fuel r2 with
            | none => none
            | some (v, r3) =>
              match skipWs r3 with
              | c2 :: r4 =>
                if c2 = rbraceChar then some (.obj ((k, v) :: acc).reverse, r4)
                else if c2 = ',' then parseObjBody fuel false ((k, v) :: acc) r4
                else none
              | [] => none
          | _ => none
      else none

end

/-- Model of `JSON.parse` on a string: parse one value, allow only trailing
whitespace, otherwise fail (JS throws a `SyntaxError`, modelled as `none`). -/
def jsonParse (s : String) : Option Json :=
  match parseVal (s.length * 2 + 8) s.toList with
  | some (j, rest) => if (skipWs rest).isEmpty then some j else none
  | none => none

/-- `WebSocket.OPEN` readyState constant of the ws library. -/
def WS_OPEN : Nat := 1

/-- `WebSocket.CLOSED` readyState constant of the ws library. -/
def WS_CLOSED : Nat := 3

/-- The per-connection mutable state the code touches: the transport's
readyState, the `isAlive` liveness flag, and whether the repeating
`pingTimer` interval is currently armed. -/
structure Ws where
  readyState : Nat
  isAlive : Bool
  pingTimerArmed : Bool
deriving DecidableEq

/-- The value passed to the user-supplied `onWebsocketMessage` handler:
either the parsed JSON value or the raw payload. -/
inductive MsgVal where
  | parsed (j : Json)
  | raw (s : String)

/-- A payload handed to `wsSend`: a JS string; any other acyclic value
(modelled by its JSON shape, on which `JSON.stringify` succeeds); or a
value containing a cyclic reference, on which `JSON.stringify` throws a
TypeError. -/
inductive Payload where
  | str (s : String)
  | other (j : Json)
  | circular

/-- Observable side effects of the handlers. -/
inductive Effect where
  | logged (e : JsError)
  | notReadyLogged (dta : Payload)
  | sent (text : String)
  | probe
  | dispatched (v : MsgVal)
  | cacheMissLogged (url fileName : String)

/-- `closeWs` from the `connection` handler: log the error unless its
message contains "CLOSED", clear the ping interval, and terminate the
transport. -/
def closeWs (err : Option JsError) (w : Ws) : Ws × List Effect :=
  let logs : List Effect :=
    match err with
    | some e => if hasSubstr e.message "CLOSED" then [] else [Effect.logged e]
    | none => []
  ({ w with pingTimerArmed := false, readyState := WS_CLOSED }, logs)

/-- Spec-level connection state: ALIVE while the transport is open,
TERMINATED once it has been closed. -/
inductive ConnPhase where
  | alive
  | terminated
deriving DecidableEq

/-- Read the spec-level state off the transport handle. -/
def phase (w : Ws) : ConnPhase :=
  if w.readyState = WS_OPEN then .alive else .terminated

/-- The `pingTimer` interval callback. `pingErr` is the error (if any) the
runtime passes to the `ws.ping` completion callback. -/
def pingTick (pingErr : Option JsError) (w : Ws) : Ws × List Effect :=
  if w.isAlive = false then closeWs none w
  else
    let w1 := { w with isAlive := false }
    match pingErr with
    | some e =>
      let r := closeWs (some e) w1
      (r.1, Effect.probe :: r.2)
    | none => (w1, [Effect.probe])

/-- The `pong` handler: set the liveness flag back to true. -/
def pongHandler (w : Ws) : Ws :=
  { w with isAlive := true }

/-- The `message` handler: try `onWebsocketMessage(JSON.parse(msg), ws)`;
on any exception (parse failure or handler failure) fall back to
`onWebsocketMessage(msg, ws)`. `handlerThrows v` says whether the user
handler throws when invoked with `v`. Returns the values dispatched to the
handler, in order, and whether an exception escapes the handler. -/
def wsMessageHandler (handlerThrows : MsgVal → Bool) (msg : String) : List MsgVal × Bool :=
  match jsonParse msg with
  | some j =>
    if handlerThrows (.parsed j) then ([.parsed j, .raw msg], handlerThrows (.raw msg))
    else ([.parsed j], false)
  | none => ([.raw msg], handlerThrows (.raw msg))

/-- Which channel events the `connection` handler reacts to. The source
registers handlers for `message` and `pong` and arms the ping interval;
it registers no `close` and no `error` handler. -/
inductive WsEvent where
  | message (msg : String)
  | pong
  | channelClose (code : Nat)
  | channelError (e : JsError)
  | tick (pingErr : Option JsError)

/-- One step of the per-connection event loop, as wired by the
`connection` handler in `startServer`. Events with no registered handler
leave the state untouched and produce no effect. The interval callback
only runs while the interval is armed. -/
def handleWsEvent (handlerThrows : MsgVal → Bool) (ev : WsEvent) (w : Ws) : Ws × List Effect :=
  match ev with
  | .message m => (w, ((wsMessageHandler handlerThrows m).1).map Effect.dispatched)
  | .pong => (pongHandler w, [])
  | .channelClose _ => (w, [])
  | .channelError _ => (w, [])
  | .tick pingErr => if w.pingTimerArmed then pingTick pingErr w else (w, [])

/-- Connection state right after the `connection` handler ran: transport
open, `isAlive = true`, ping interval armed. -/
def initConn : Ws :=
  { readyState := WS_OPEN, isAlive := true, pingTimerArmed := true }

/-- One heartbeat interval: the peer's acknowledgment (if any) is
delivered before the timer fires; then the interval callback runs (with a
probe send that succeeds). -/
def heartbeatRound (acked : Bool) (w : Ws) : Ws × List Effect :=
  let w1 := if acked ∧ phase w = .alive then pongHandler w else w
  if w1.pingTimerArmed then pingTick none w1 else (w1, [])

/-- State after `n` heartbeat intervals, `acks i` telling whether the peer
acknowledged during interval `i`. -/
def runRounds (acks : Nat → Bool) : Nat → Ws → Ws
  | 0, w => w
  | n + 1, w => (heartbeatRound (acks n) (runRounds acks n w)).1

/-- The TypeError `JSON.stringify` throws on a value with a cyclic
reference. -/
def circularJsonError : JsError :=
  ⟨"TypeError: Converting circular structure to JSON"⟩

/-- The first argument of `ws.send` in `wsSend`:
`(typeof dta === "string" || dta instanceof String) ? dta : JSON.stringify(dta)`.
It is evaluated synchronously before `ws.send` is entered, so a
`JSON.stringify` failure throws out of `wsSend` to the caller. -/
def serializeForSend : Payload → Except JsError String
  | .str s => .ok s
  | .other j => .ok (stringify j)
  | .circular => .error circularJsonError

/-- `wsSend` from jsminor.mjs. `ws = none` models a missing/falsy socket
argument; `sendErr` is the error (if any) the runtime passes to the
`ws.send` completion callback. Returns the call's outcome — `.ok` with the
JS return value (`none` = `undefined`), or `.error` when an exception
escapes to the caller — and the effects. -/
def wsSend (ws : Option Ws) (dta : Payload) (sendErr : Option JsError) :
    Except JsError (Option Bool) × List Effect :=
  match ws with
  | some w =>
    if w.readyState = WS_OPEN then
      match serializeForSend dta with
      | .error e => (.error e, [])
      | .ok text =>
        (.ok none,
         [Effect.sent text] ++ (match sendErr with | some e => [Effect.logged e] | none => []))
    else (.ok (some false), [Effect.notReadyLogged dta])
  | none => (.ok (some false), [Effect.notReadyLogged dta])

/-- Own-property lookup in a JS plain object used as a map: the last
assignment to a key wins. -/
def objGet {α : Type} : List (String × α) → String → Option α
  | [], _ => none
  | (k, v) :: rest, key =>
    match objGet rest key with
    | some v2 => some v2
    | none => if k = key then some v else none

/-- Property names a plain object `\x7b\x7d` inherits from
`Object.prototype`; bracket lookup of any of these finds a truthy value
(a function, or for `__proto__` the prototype object) even though the key
was never assigned. -/
def objectPrototypeKeys : List String :=
  ["constructor", "hasOwnProperty", "isPrototypeOf", "propertyIsEnumerable",
   "toLocaleString", "toString", "valueOf",
   "__defineGetter__", "__defineSetter__", "__lookupGetter__", "__lookupSetter__",
   "__proto__"]

/-- Result of a JS bracket lookup `obj[key]` on a plain object: an own
data property, a truthy member inherited from `Object.prototype`, or
`undefined`. -/
inductive JsLookup (α : Type) where
  | own (v : α)
  | inherited
  | undefined

/-- JS bracket lookup on a plain object: own properties shadow the
prototype; otherwise the `Object.prototype` members are found. -/
def jsIndex {α : Type} (m : List (String × α)) (key : String) : JsLookup α :=
  match objGet m key with
  | some v => .own v
  | none => if key ∈ objectPrototypeKeys then .inherited else .undefined

/-- JS truthiness of a bracket-lookup result: Buffers, inherited
functions and the prototype object are all truthy; `undefined` is falsy. -/
def jsTruthy {α : Type} : JsLookup α → Bool
  | .own _ => true
  | .inherited => true
  | .undefined => false

/-- The `filesCache` construction loop in `startServer`: list the static
directory, read every file, fail on the first filesystem error (the
exception aborts startup before the server ever listens). `readdir` and
`readFile` model the state of the disk at startup. -/
def cacheLoop (readFile : String → Except JsError Bytes)
    (cache : List (String × Bytes)) : List String → Except JsError (List (String × Bytes))
  | [] => .ok cache
  | file :: rest =>
    match readFile file with
    | .error e => .error e
    | .ok b => cacheLoop readFile (cache ++ [(file, b)]) rest

/-- `buildFilesCache` runs the loop on the directory listing, propagating a
listing failure unchanged. -/
def buildFilesCache (readdir : Except JsError (List String))
    (readFile : String → Except JsError Bytes) :
    Except JsError (List (String × Bytes)) :=
  match readdir with
  | .error e => .error e
  | .ok files => cacheLoop readFile [] files

/-- Response data written by the `request` handler. -/
inductive RespBody where
  | bin (b : Bytes)
  | txt (s : String)
deriving DecidableEq

/-- An HTTP response: status, head object, body. -/
structure HttpResponse where
  status : Nat
  head : List (String × String)
  body : RespBody
deriving DecidableEq

/-- File-name resolution of the `request` handler: `path.basename` of the
URL, collapsed to `index.html` for directory-style URLs. -/
def resolveFileName (url : String) : String :=
  let fileName := basename url
  if jsEndsWith url "/" ∨ fileName = "" ∨ fileName = "index.html" ∨ fileName = "index.htm"
  then "index.html" else fileName

/-- Outcome of one request: a completed response, or a response whose
200 head was written but whose body write threw (the exception landing in
the handler's catch block). -/
inductive ReqResult where
  | completed (resp : HttpResponse)
  | headOnly (status : Nat) (head : List (String × String))
deriving DecidableEq

/-- The TypeError `response.end` throws when handed a function (an
inherited `Object.prototype` member) instead of a string or Buffer. -/
def endChunkTypeError : JsError :=
  ⟨"TypeError ERR_INVALID_ARG_TYPE: The \"chunk\" argument must be of type string or an instance of Buffer or Uint8Array"⟩

/-- The `request` handler from `startServer`. The cache test
`if (server.filesCache[fileName])` is a truthiness test on a plain-object
bracket lookup: an own entry serves the cached bytes with the classified
content type; `undefined` answers 404 and logs the miss; a truthy
inherited `Object.prototype` member (e.g. for `/toString`) also passes
the test, so `writeHead(200, ...)` runs and `response.end(<function>)`
then throws into the surrounding try/catch, which logs the error. -/
def requestHandler (filesCache : List (String × Bytes)) (url : String) :
    ReqResult × List Effect :=
  let fileName := resolveFileName url
  match jsIndex filesCache fileName with
  | .own b => (.completed ⟨200, fileToContentType fileName, .bin b⟩, [])
  | .inherited =>
    (.headOnly 200 (fileToContentType fileName), [Effect.logged endChunkTypeError])
  | .undefined =>
    (.completed ⟨404, [("Content-Type", "text/plain")], .txt "404 Not Found\n"⟩,
     [Effect.cacheMissLogged url fileName])



/-- C9: `fileToContentType` is a total function from file names to
content-type head objects. The extension is taken case-insensitively;
`js` maps to application/javascript, `txt` to text/plain, `gif` to
image/gif, `jpg` and `jpeg` to image/jpeg, `png` to image/png, `pdf` to
application/pdf, `zip` to application/zip, `mp3` to audio/mpeg, `wav` to
audio/x-wav; any other extension maps to `text/` followed by the
extension, and a name with no extension maps to text/plain. -/
theorem fileToContentType_total_mapping :
    (∀ f : String, ∃ t, fileToContentType f = [("Content-Type", t)]) ∧
    (∀ f, fileExt f = "js" → fileToContentType f = [("Content-Type", "application/javascript")]) ∧
    (∀ f, fileExt f = "txt" → fileToContentType f = [("Content-Type", "text/plain")]) ∧
    (∀ f, fileExt f = "gif" → fileToContentType f = [("Content-Type", "image/gif")]) ∧
    (∀ f, fileExt f = "jpg" ∨ fileExt f = "jpeg" →
       fileToContentType f = [("Content-Type", "image/jpeg")]) ∧
    (∀ f, fileExt f = "png" → fileToContentType f = [("Content-Type", "image/png")]) ∧
    (∀ f, fileExt f = "pdf" → fileToContentType f = [("Content-Type", "application/pdf")]) ∧
    (∀ f, fileExt f = "zip" → fileToContentType f = [("Content-Type", "application/zip")]) ∧
    (∀ f, fileExt f = "mp3" → fileToContentType f = [("Content-Type", "audio/mpeg")]) ∧
    (∀ f, fileExt f = "wav" → fileToContentType f = [("Content-Type", "audio/x-wav")]) ∧
    (∀ f, fileExt f ∉ ["js", "txt", "gif", "jpg", "jpeg", "png", "pdf", "zip", "mp3", "wav"] →
       fileExt f ≠ "" → fileToContentType f = [("Content-Type", "text/" ++ fileExt f)]) ∧
    (∀ f, fileExt f = "" → fileToContentType f = [("Content-Type", "text/plain")]) ∧
    fileToContentType "a.js" = [("Content-Type", "application/javascript")] ∧
    fileToContentType "a.PNG" = [("Content-Type", "image/png")] ∧
    fileToContentType "a.xyz" = [("Content-Type", "text/xyz")] ∧
    fileToContentType "a" = [("Content-Type", "text/plain")] := by
  refine ⟨fun f => ⟨_, rfl⟩, ?_, ?_, ?_, ?_, ?_, ?_, ?_, ?_, ?_, ?_, ?_,
    by decide, by decide, by decide, by decide⟩
  · intro f h; simp [fileToContentType, h]
  · intro f h; simp [fileToContentType, h]
  · intro f h; simp [fileToContentType, h]
  · intro f h; rcases h with h | h <;> simp [fileToContentType, h]
  · intro f h; simp [fileToContentType, h]
  · intro f h; simp [fileToContentType, h]
  · intro f h; simp [fileToContentType, h]
  · intro f h; simp [fileToContentType, h]
  · intro f h; simp [fileToContentType, h]
  · intro f h he
    simp only [List.mem_cons, List.mem_singleton, not_or] at h
    obtain ⟨h1, h2, h3, h4, h5, h6, h7, h8, h9, h10⟩ := h
    simp [fileToContentType, h1, h2, h3, h4, h5, h6, h7, h8, h9, h10, he]
  · intro f h; simp [fileToContentType, h]

/-- Witness for C9: the hypotheses of the per-extension clauses are
discharged at the spec's four example file names. -/
theorem fileToContentType_total_mapping_witness :
    fileToContentType "a.js" = [("Content-Type", "application/javascript")] ∧
    fileToContentType "a.PNG" = [("Content-Type", "image/png")] ∧
    fileToContentType "a.xyz" = [("Content-Type", "text/xyz")] ∧
    fileToContentType "a" = [("Content-Type", "text/plain")] :=
  ⟨fileToContentType_total_mapping.2.1 "a.js" (by decide),
   fileToContentType_total_mapping.2.2.2.2.2.1 "a.PNG" (by decide),
   fileToContentType_total_mapping.2.2.2.2.2.2.2.2.2.2.1 "a.xyz" (by decide) (by decide),
   fileToContentType_total_mapping.2.2.2.2.2.2.2.2.2.2.2.1 "a" (by decide)⟩

/-- C5: termination (`closeWs`) is idempotent: a second invocation leaves
the already-terminated connection unchanged and logs nothing; the timer
cancellation and transport close are safe to repeat, and the terminated
state is absorbing. -/
theorem terminate_idempotent (w : Ws) (err1 err2 : Option JsError) :
    (closeWs err2 (closeWs err1 w).1).1 = (closeWs err1 w).1 ∧
    closeWs none (closeWs err1 w).1 = ((closeWs err1 w).1, []) ∧
    (closeWs err1 w).1.pingTimerArmed = false ∧
    phase (closeWs err1 w).1 = .terminated :=
  ⟨rfl, rfl, rfl, rfl⟩

/-- C1: on a heartbeat tick of an ALIVE connection: if the liveness flag
is false the connection is terminated (repeating timer cancelled,
transport forcibly closed, no probe sent); otherwise the flag is set
false and a liveness probe is sent, and if the probe send itself fails the
connection is terminated immediately. -/
theorem heartbeat_tick_behavior (w : Ws) (h : phase w = .alive) :
    (w.isAlive = false → ∀ pingErr,
       pingTick pingErr w =
         ({ w with pingTimerArmed := false, readyState := WS_CLOSED }, []) ∧
       phase (pingTick pingErr w).1 = .terminated) ∧
    (w.isAlive = true →
       pingTick none w = ({ w with isAlive := false }, [Effect.probe]) ∧
       ∀ e, pingTick (some e) w =
           ({ w with isAlive := false, pingTimerArmed := false, readyState := WS_CLOSED },
            Effect.probe :: (if hasSubstr e.message "CLOSED" then [] else [Effect.logged e])) ∧
         phase (pingTick (some e) w).1 = .terminated) := by
  constructor
  · intro hflag pingErr
    constructor
    · simp [pingTick, hflag, closeWs]
    · simp [pingTick, hflag, closeWs, phase, WS_CLOSED, WS_OPEN]
  · intro hflag
    refine ⟨by simp [pingTick, hflag], fun e => ⟨?_, ?_⟩⟩
    · simp [pingTick, hflag, closeWs]
    · simp [pingTick, hflag, closeWs, phase, WS_CLOSED, WS_OPEN]

/-- Witness for C1: both tick branches evaluated on concrete ALIVE
connections (flag already false; flag true with and without a probe
error). -/
theorem heartbeat_tick_behavior_witness :
    pingTick none { initConn with isAlive := false } =
      ({ initConn with isAlive := false, pingTimerArmed := false, readyState := WS_CLOSED },
       []) ∧
    pingTick none initConn = ({ initConn with isAlive := false }, [Effect.probe]) ∧
    phase (pingTick (some ⟨"write EPIPE"⟩) initConn).1 = .terminated :=
  ⟨((heartbeat_tick_behavior { initConn with isAlive := false } (by decide)).1 rfl none).1,
   ((heartbeat_tick_behavior initConn (by decide)).2 rfl).1,
   (((heartbeat_tick_behavior initConn (by decide)).2 rfl).2 ⟨"write EPIPE"⟩).2⟩

/-- C6 as stated fails on the code: `JSON.stringify(dta)` is evaluated
synchronously as the `ws.send` argument, so on an open connection a
payload with a cyclic reference makes `wsSend` throw the TypeError to its
caller — raised as a crash, not reported: nothing is sent and nothing is
logged. -/
theorem wsSend_circular_raises_cex :
    wsSend (some initConn) .circular none = (.error circularJsonError, []) ∧
    (wsSend (some initConn) .circular none).2 = [] :=
  ⟨rfl, rfl⟩

/-- C6 amended: a send on a connection that is not in the
ALIVE-and-open state is rejected: the function returns `false` (no
exception crosses the API boundary), logs the not-ready condition, and
sends nothing — no queue, no retry. On an open connection a string
payload is sent verbatim and any other serializable payload is
JSON-serialized first; a transport error handed to the send callback is
reported (logged), not raised — but a serialization failure (cyclic
payload) throws synchronously out of the send to the caller, unreported. -/
theorem wsSend_behavior_amended :
    (∀ (dta : Payload) (sendErr : Option JsError),
       wsSend none dta sendErr = (.ok (some false), [Effect.notReadyLogged dta])) ∧
    (∀ (w : Ws) (dta : Payload) (sendErr : Option JsError), w.readyState ≠ WS_OPEN →
       wsSend (some w) dta sendErr = (.ok (some false), [Effect.notReadyLogged dta])) ∧
    (∀ (w : Ws) (s : String), w.readyState = WS_OPEN →
       wsSend (some w) (.str s) none = (.ok none, [Effect.sent s])) ∧
    (∀ (w : Ws) (j : Json), w.readyState = WS_OPEN →
       wsSend (some w) (.other j) none = (.ok none, [Effect.sent (stringify j)])) ∧
    (∀ (w : Ws) (s : String) (e : JsError), w.readyState = WS_OPEN →
       wsSend (some w) (.str s) (some e) = (.ok none, [Effect.sent s, Effect.logged e])) ∧
    (∀ (w : Ws) (sendErr : Option JsError), w.readyState = WS_OPEN →
       wsSend (some w) .circular sendErr = (.error circularJsonError, [])) := by
  refine ⟨fun dta sendErr => rfl, ?_, ?_, ?_, ?_, ?_⟩
  · intro w dta sendErr h; simp [wsSend, h]
  · intro w s h; simp [wsSend, h, serializeForSend]
  · intro w j h; simp [wsSend, h, serializeForSend]
  · intro w s e h; simp [wsSend, h, serializeForSend]
  · intro w sendErr h; simp [wsSend, h, serializeForSend]

/-- Witness for C6 (amended): the clauses evaluated on a closed socket
and on an open one, with a string, an object and a cyclic payload. -/
theorem wsSend_behavior_amended_witness :
    wsSend (some ⟨WS_CLOSED, false, false⟩) (.str "hi") none =
      (.ok (some false), [Effect.notReadyLogged (.str "hi")]) ∧
    wsSend (some initConn) (.str "hi") none = (.ok none, [Effect.sent "hi"]) ∧
    wsSend (some initConn) (.other (.obj [("a", .num "1")])) none =
      (.ok none, [Effect.sent (stringify (.obj [("a", .num "1")]))]) ∧
    wsSend (some initConn) (.str "hi") (some ⟨"write EPIPE"⟩) =
      (.ok none, [Effect.sent "hi", Effect.logged ⟨"write EPIPE"⟩]) ∧
    wsSend (some initConn) .circular none = (.error circularJsonError, []) :=
  ⟨wsSend_behavior_amended.2.1 ⟨WS_CLOSED, false, false⟩ (.str "hi") none (by decide),
   wsSend_behavior_amended.2.2.1 initConn "hi" rfl,
   wsSend_behavior_amended.2.2.2.1 initConn (.obj [("a", .num "1")]) rfl,
   wsSend_behavior_amended.2.2.2.2.1 initConn "hi" ⟨"write EPIPE"⟩ rfl,
   wsSend_behavior_amended.2.2.2.2.2 initConn none rfl⟩

/-- C4: for an inbound message on an ALIVE connection, if the raw payload
parses as JSON the parsed value is dispatched (first) to the user handler
together with the connection, and if parsing fails the original raw
payload is dispatched unchanged; the payload `{"a":1}` dispatches as the
structured value with member `a = 1`, and the payload `hello` dispatches
as the raw string `hello`. -/
theorem inbound_message_dispatch :
    (∀ (ht : MsgVal → Bool) (msg : String) (j : Json), jsonParse msg = some j →
       ((wsMessageHandler ht msg).1).head? = some (.parsed j)) ∧
    (∀ (ht : MsgVal → Bool) (msg : String), jsonParse msg = none →
       (wsMessageHandler ht msg).1 = [.raw msg]) ∧
    (∀ (ht : MsgVal → Bool) (msg : String) (w : Ws),
       handleWsEvent ht (.message msg) w =
         (w, ((wsMessageHandler ht msg).1).map Effect.dispatched)) ∧
    (wsMessageHandler (fun _ => false) "\x7b\"a\":1\x7d").1 =
      [.parsed (.obj [("a", .num "1")])] ∧
    (∀ ht : MsgVal → Bool, (wsMessageHandler ht "hello").1 = [.raw "hello"]) := by
  refine ⟨?_, ?_, fun ht msg w => rfl, rfl, ?_⟩
  · intro ht msg j h
    cases hb : ht (.parsed j) <;> simp [wsMessageHandler, h, hb]
  · intro ht msg h
    simp [wsMessageHandler, h]
  · intro ht
    simp [wsMessageHandler, show jsonParse "hello" = none from rfl]

/-- Witness for C4: the parse-success clause at the payload `{"a":1}` and
the parse-failure clause at the payload `hello`, with a throwing handler. -/
theorem inbound_message_dispatch_witness :
    ((wsMessageHandler (fun _ => true) "\x7b\"a\":1\x7d").1).head? =
      some (.parsed (.obj [("a", .num "1")])) ∧
    (wsMessageHandler (fun _ => true) "hello").1 = [.raw "hello"] :=
  ⟨inbound_message_dispatch.1 (fun _ => true) "\x7b\"a\":1\x7d" (.obj [("a", .num "1")]) rfl,
   inbound_message_dispatch.2.1 (fun _ => true) "hello" rfl⟩

/-- C10: if the payload parses as JSON but the user handler throws on the
parsed value, the catch block invokes the handler a second time for the
same message with the original raw payload; the connection state is
untouched at that point, and an exception escapes only if that second,
raw dispatch itself also throws. -/
theorem handler_throw_raw_redispatch (ht : MsgVal → Bool) (msg : String) (j : Json)
    (hp : jsonParse msg = some j) (hthrow : ht (.parsed j) = true) :
    wsMessageHandler ht msg = ([.parsed j, .raw msg], ht (.raw msg)) ∧
    ∀ w : Ws, (handleWsEvent ht (.message msg) w).1 = w := by
  exact ⟨by simp [wsMessageHandler, hp, hthrow], fun w => rfl⟩

/-- Witness for C10: a handler that throws exactly on parsed values, fed
the payload `{"a":1}`. -/
theorem handler_throw_raw_redispatch_witness :
    wsMessageHandler (fun v => match v with | .parsed _ => true | .raw _ => false)
        "\x7b\"a\":1\x7d" =
      ([.parsed (.obj [("a", .num "1")]), .raw "\x7b\"a\":1\x7d"], false) :=
  (handler_throw_raw_redispatch (fun v => match v with | .parsed _ => true | .raw _ => false)
    "\x7b\"a\":1\x7d" (.obj [("a", .num "1")]) rfl rfl).1

/-- C3 as stated fails on the code: the connection handler registers no
close handler and no error handler on the channel, so a transport-level
closure or error signal on an ALIVE connection leaves the state ALIVE,
the heartbeat timer armed, and reports nothing. -/
theorem channel_signal_no_handler_cex :
    handleWsEvent (fun _ => false) (.channelError ⟨"read ECONNRESET"⟩) initConn =
      (initConn, []) ∧
    handleWsEvent (fun _ => false) (.channelClose 1006) initConn = (initConn, []) ∧
    phase initConn = .alive ∧ initConn.pingTimerArmed = true :=
  ⟨rfl, rfl, rfl, rfl⟩

/-- C3 amended: the code registers no transport closure/error handler, so
such a signal by itself changes nothing; teardown instead runs through
`closeWs`, reached from the heartbeat tick when the flag is stale or the
probe send fails. `closeWs` cancels the timer, forcibly closes the
transport (state TERMINATED), suppresses an error whose message contains
"CLOSED" from error reporting, and reports any other error before
teardown completes. -/
theorem closeWs_teardown_amended :
    (∀ (ht : MsgVal → Bool) (c : Nat) (w : Ws),
       handleWsEvent ht (.channelClose c) w = (w, [])) ∧
    (∀ (ht : MsgVal → Bool) (e : JsError) (w : Ws),
       handleWsEvent ht (.channelError e) w = (w, [])) ∧
    (∀ (e : JsError) (w : Ws), hasSubstr e.message "CLOSED" = true →
       closeWs (some e) w =
         ({ w with pingTimerArmed := false, readyState := WS_CLOSED }, [])) ∧
    (∀ (e : JsError) (w : Ws), hasSubstr e.message "CLOSED" = false →
       closeWs (some e) w =
         ({ w with pingTimerArmed := false, readyState := WS_CLOSED }, [Effect.logged e])) ∧
    (∀ (err : Option JsError) (w : Ws),
       (closeWs err w).1.pingTimerArmed = false ∧ phase (closeWs err w).1 = .terminated) := by
  refine ⟨fun ht c w => rfl, fun ht e w => rfl, ?_, ?_, fun err w => ⟨rfl, rfl⟩⟩
  · intro e w h; simp [closeWs, h]
  · intro e w h; simp [closeWs, h]

/-- Witness for C3 (amended): a ping failure on an already-closed socket
is suppressed; a genuine error is reported. -/
theorem closeWs_teardown_amended_witness :
    closeWs (some ⟨"WebSocket is not open: readyState 3 (CLOSED)"⟩) initConn =
      ({ initConn with pingTimerArmed := false, readyState := WS_CLOSED }, []) ∧
    closeWs (some ⟨"read ECONNRESET"⟩) initConn =
      ({ initConn with pingTimerArmed := false, readyState := WS_CLOSED },
       [Effect.logged ⟨"read ECONNRESET"⟩]) :=
  ⟨closeWs_teardown_amended.2.2.1 ⟨"WebSocket is not open: readyState 3 (CLOSED)"⟩ initConn
     (by decide),
   closeWs_teardown_amended.2.2.2.1 ⟨"read ECONNRESET"⟩ initConn (by decide)⟩

/-- Running the cache loop when every read succeeds appends one entry per
listed file, in listing order. -/
theorem cacheLoop_ok (disk : String → Bytes) :
    ∀ (files : List String) (cache : List (String × Bytes)),
      cacheLoop (fun f => .ok (disk f)) cache files =
        .ok (cache ++ files.map fun f => (f, disk f)) := by
  intro files
  induction files with
  | nil => intro cache; simp [cacheLoop]
  | cons f rest ih =>
    intro cache
    simp [cacheLoop, ih (cache ++ [(f, disk f)])]

/-- If any listed file fails to read, the cache loop aborts with an error. -/
theorem cacheLoop_error (readFile : String → Except JsError Bytes) :
    ∀ (files : List String) (cache : List (String × Bytes)) (f : String) (e : JsError),
      f ∈ files → readFile f = .error e →
      ∃ e2, cacheLoop readFile cache files = .error e2 := by
  intro files
  induction files with
  | nil =>
    intro cache f e hf _
    exact absurd hf (List.not_mem_nil f)
  | cons g rest ih =>
    intro cache f e hf herr
    cases hg : readFile g with
    | error e2 => exact ⟨e2, by simp [cacheLoop, hg]⟩
    | ok b =>
      rcases List.mem_cons.mp hf with hfg | hmem
      · rw [hfg, hg] at herr; cases herr
      · have := ih (cache ++ [(g, b)]) f e hmem herr
        simpa [cacheLoop, hg] using this

/-- A key absent from the listing is absent from the built cache. -/
theorem objGet_map_not_mem {β : Type} (val : String → β) :
    ∀ (files : List String) (g : String), g ∉ files →
      objGet (files.map fun x => (x, val x)) g = none := by
  intro files
  induction files with
  | nil => intro g _; rfl
  | cons f rest ih =>
    intro g h
    have h1 : f ≠ g := by intro hfg; exact h (by simp [hfg])
    have h2 : g ∉ rest := by intro hg; exact h (by simp [hg])
    simp [objGet, ih g h2, h1]

/-- A key in the listing maps to its disk contents in the built cache. -/
theorem objGet_map_mem {β : Type} (val : String → β) :
    ∀ (files : List String) (f : String), f ∈ files →
      objGet (files.map fun x => (x, val x)) f = some (val f) := by
  intro files
  induction files with
  | nil => intro f h; exact absurd h (List.not_mem_nil f)
  | cons g rest ih =>
    intro f h
    by_cases hf : f ∈ rest
    · simp [objGet, ih f hf]
    · have hfg : g = f := by
        rcases List.mem_cons.mp h with h1 | h1
        · exact h1.symm
        · exact absurd h1 hf
      simp [objGet, objGet_map_not_mem val rest f hf, hfg]

/-- C7 as stated fails on the code: `toString` names no file in the
startup directory, yet the plain-object lookup the code performs does not
come back absent — it finds the truthy member inherited from
`Object.prototype`. -/
theorem filesCache_proto_key_cex :
    ("toString" ∉ ["index.html"]) ∧
    jsIndex [("index.html", ([60] : Bytes))] "toString" = .inherited ∧
    jsTruthy (jsIndex [("index.html", ([60] : Bytes))] "toString") = true :=
  ⟨by decide, rfl, rfl⟩

/-- C7 amended: the asset cache is built once, synchronously at startup,
from the single configured directory listing: with every read succeeding
it maps each listed file name to exactly its on-disk bytes at startup,
and lookup of a name not present then is absent (`undefined`) — except
for the `Object.prototype` member names (constructor, hasOwnProperty,
toString, valueOf, ...), where the plain-object lookup finds the truthy
inherited member instead of absent. A directory-listing failure or any
file-read failure makes the construction abort with an error — no cache
value is produced at all, so the server never proceeds past startup.
(The build clauses assume no directory entry is named `__proto__`, whose
JS assignment semantics differ from own-property creation.) -/
theorem filesCache_correct_amended :
    (∀ (files : List String) (disk : String → Bytes), "__proto__" ∉ files →
       buildFilesCache (.ok files) (fun f => .ok (disk f)) =
         .ok (files.map fun f => (f, disk f))) ∧
    (∀ (files : List String) (disk : String → Bytes) (f : String),
       "__proto__" ∉ files → f ∈ files →
       jsIndex (files.map fun x => (x, disk x)) f = .own (disk f)) ∧
    (∀ (files : List String) (disk : String → Bytes) (g : String),
       g ∉ files → g ∉ objectPrototypeKeys →
       jsIndex (files.map fun x => (x, disk x)) g = .undefined) ∧
    (∀ (files : List String) (disk : String → Bytes) (g : String),
       g ∉ files → g ∈ objectPrototypeKeys →
       jsIndex (files.map fun x => (x, disk x)) g = .inherited) ∧
    (∀ (e : JsError) (readFile : String → Except JsError Bytes),
       buildFilesCache (.error e) readFile = .error e) ∧
    (∀ (files : List String) (readFile : String → Except JsError Bytes) (f : String)
       (e : JsError), f ∈ files → readFile f = .error e →
       ∃ e2, buildFilesCache (.ok files) readFile = .error e2) := by
  refine ⟨?_, ?_, ?_, ?_, fun e readFile => rfl, ?_⟩
  · intro files disk _
    simpa [buildFilesCache] using cacheLoop_ok disk files []
  · intro files disk f _ h
    simp [jsIndex, objGet_map_mem disk files f h]
  · intro files disk g h1 h2
    simp [jsIndex, objGet_map_not_mem disk files g h1, h2]
  · intro files disk g h1 h2
    simp [jsIndex, objGet_map_not_mem disk files g h1, h2]
  · intro files readFile f e hf he
    simpa [buildFilesCache] using cacheLoop_error readFile files [] f e hf he

/-- Witness for C7 (amended): a two-file directory built successfully,
lookups on a present name, an absent plain name and an absent prototype
name, and an aborted build when one file read fails. -/
theorem filesCache_correct_amended_witness :
    buildFilesCache (.ok ["index.html", "a.txt"])
        (fun f => .ok (if f = "index.html" then ([60] : Bytes) else [97])) =
      .ok [("index.html", [60]), ("a.txt", [97])] ∧
    jsIndex ((["index.html", "a.txt"].map fun x =>
        (x, if x = "index.html" then ([60] : Bytes) else [97]))) "index.html" = .own [60] ∧
    jsIndex ((["index.html", "a.txt"].map fun x =>
        (x, if x = "index.html" then ([60] : Bytes) else [97]))) "nope.txt" = .undefined ∧
    jsIndex ((["index.html", "a.txt"].map fun x =>
        (x, if x = "index.html" then ([60] : Bytes) else [97]))) "toString" = .inherited ∧
    ∃ e2, buildFilesCache (.ok ["index.html", "a.txt"])
        (fun f => if f = "a.txt" then .error ⟨"EACCES"⟩ else .ok ([60] : Bytes)) =
      .error e2 :=
  ⟨filesCache_correct_amended.1 ["index.html", "a.txt"]
     (fun f => if f = "index.html" then ([60] : Bytes) else [97]) (by decide),
   filesCache_correct_amended.2.1 ["index.html", "a.txt"]
     (fun f => if f = "index.html" then ([60] : Bytes) else [97]) "index.html"
     (by decide) (by decide),
   filesCache_correct_amended.2.2.1 ["index.html", "a.txt"]
     (fun f => if f = "index.html" then ([60] : Bytes) else [97]) "nope.txt"
     (by decide) (by decide),
   filesCache_correct_amended.2.2.2.1 ["index.html", "a.txt"]
     (fun f => if f = "index.html" then ([60] : Bytes) else [97]) "toString"
     (by decide) (by decide),
   filesCache_correct_amended.2.2.2.2.2 ["index.html", "a.txt"]
     (fun f => if f = "a.txt" then .error ⟨"EACCES"⟩ else .ok ([60] : Bytes)) "a.txt"
     ⟨"EACCES"⟩ (by decide) rfl⟩

/-- C8 as stated fails on the code: `/toString` resolves to the file name
`toString`, which has no cache entry, yet the truthiness test finds the
inherited `Object.prototype.toString` function: the handler writes a 200
head (classified text/plain) and `response.end` on the function throws
into the catch block, which logs the error — no 404 status, no
plain-text body, no miss report. -/
theorem request_proto_key_cex :
    resolveFileName "/toString" = "toString" ∧
    objGet [("index.html", ([60] : Bytes))] "toString" = none ∧
    requestHandler [("index.html", ([60] : Bytes))] "/toString" =
      (.headOnly 200 [("Content-Type", "text/plain")], [Effect.logged endChunkTypeError]) ∧
    (requestHandler [("index.html", ([60] : Bytes))] "/toString").1 ≠
      .completed ⟨404, [("Content-Type", "text/plain")], .txt "404 Not Found\n"⟩ ∧
    Effect.cacheMissLogged "/toString" "toString" ∉
      (requestHandler [("index.html", ([60] : Bytes))] "/toString").2 :=
  ⟨by decide, rfl, rfl, by decide,
   fun h => Effect.noConfusion (List.mem_singleton.mp h)⟩

/-- C8 amended: the request handler takes the URL's final path segment as
the target, collapsing to index.html when the URL ends in a separator or
the segment is empty, index.html or index.htm. A cache hit answers 200
with the classified content-type head and the cached bytes verbatim. A
miss whose resolved name is not an `Object.prototype` member name answers
404 with a plain-text body and logs the original URL and resolved file
name — a per-request condition, never fatal to the server. But a missing
name that is such a member (e.g. `toString`) passes the truthiness test:
the handler writes a 200 head and the body write throws, the error being
caught and logged — neither the 404 body nor the miss report happens. -/
theorem request_handler_behavior_amended :
    (∀ url : String, jsEndsWith url "/" = true → resolveFileName url = "index.html") ∧
    (∀ url : String,
       basename url = "" ∨ basename url = "index.html" ∨ basename url = "index.htm" →
       resolveFileName url = "index.html") ∧
    (∀ url : String, jsEndsWith url "/" = false →
       basename url ≠ "" → basename url ≠ "index.html" → basename url ≠ "index.htm" →
       resolveFileName url = basename url) ∧
    (∀ (cache : List (String × Bytes)) (url : String) (b : Bytes),
       jsIndex cache (resolveFileName url) = .own b →
       requestHandler cache url =
         (.completed ⟨200, fileToContentType (resolveFileName url), .bin b⟩, [])) ∧
    (∀ (cache : List (String × Bytes)) (url : String),
       jsIndex cache (resolveFileName url) = .undefined →
       requestHandler cache url =
         (.completed ⟨404, [("Content-Type", "text/plain")], .txt "404 Not Found\n"⟩,
          [Effect.cacheMissLogged url (resolveFileName url)])) ∧
    (∀ (cache : List (String × Bytes)) (url : String),
       jsIndex cache (resolveFileName url) = .inherited →
       requestHandler cache url =
         (.headOnly 200 (fileToContentType (resolveFileName url)),
          [Effect.logged endChunkTypeError])) := by
  refine ⟨?_, ?_, ?_, ?_, ?_, ?_⟩
  · intro url h; simp [resolveFileName, h]
  · intro url h
    rcases h with h | h | h <;> simp [resolveFileName, h]
  · intro url h h1 h2 h3; simp [resolveFileName, h, h1, h2, h3]
  · intro cache url b h; simp [requestHandler, h]
  · intro cache url h; simp [requestHandler, h]
  · intro cache url h; simp [requestHandler, h]

/-- Witness for C8 (amended): a directory-style URL served from the
cached index.html, a plain file name resolution, a logged 404 miss, and
the prototype-member case at `/toString`. -/
theorem request_handler_behavior_amended_witness :
    resolveFileName "/" = "index.html" ∧
    resolveFileName "/sub/a.txt" = "a.txt" ∧
    requestHandler [("index.html", ([60] : Bytes))] "/" =
      (.completed ⟨200, fileToContentType "index.html", .bin [60]⟩, []) ∧
    requestHandler [("index.html", ([60] : Bytes))] "/missing.txt" =
      (.completed ⟨404, [("Content-Type", "text/plain")], .txt "404 Not Found\n"⟩,
       [Effect.cacheMissLogged "/missing.txt" "missing.txt"]) ∧
    requestHandler [("index.html", ([60] : Bytes))] "/toString" =
      (.headOnly 200 (fileToContentType "toString"), [Effect.logged endChunkTypeError]) :=
  ⟨request_handler_behavior_amended.1 "/" (by decide),
   request_handler_behavior_amended.2.2.1 "/sub/a.txt" (by decide) (by decide) (by decide)
     (by decide),
   request_handler_behavior_amended.2.2.2.1 [("index.html", [60])] "/" [60] rfl,
   request_handler_behavior_amended.2.2.2.2.1 [("index.html", [60])] "/missing.txt" rfl,
   request_handler_behavior_amended.2.2.2.2.2 [("index.html", [60])] "/toString" rfl⟩

/-- With an acknowledgment arriving every interval, each round ends in the
open, armed state (the flag having been freshly set true before the tick
cleared it again). -/
theorem runRounds_allAck (n : Nat) :
    runRounds (fun _ => true) n initConn = initConn ∨
    runRounds (fun _ => true) n initConn =
      { readyState := WS_OPEN, isAlive := false, pingTimerArmed := true } := by
  induction n with
  | zero => exact Or.inl rfl
  | succ m ih =>
    refine Or.inr ?_
    rcases ih with h | h
    all_goals
      show (heartbeatRound true (runRounds (fun _ => true) m initConn)).1 = _
    all_goals rw [h]
    all_goals rfl

/-- With no acknowledgments, from the third round on the connection stays
in the final state: transport closed, timer disarmed, no activity. -/
theorem runRounds_noAck_dead (k : Nat) :
    runRounds (fun _ => false) (2 + k) initConn =
      { readyState := WS_CLOSED, isAlive := false, pingTimerArmed := false } := by
  induction k with
  | zero => rfl
  | succ m ih =>
    show (heartbeatRound false (runRounds (fun _ => false) (2 + m) initConn)).1 = _
    rw [ih]
    rfl

/-- C2: a connection whose peer acknowledges every probe within the
interval stays ALIVE for all time; with no acknowledgments, the first
tick sends the probe (connection still ALIVE one interval later, just
before the second tick), and the second tick — exactly one interval after
that probe — terminates the connection with timer and transport both
released, after which no timer runs and the state never changes again. -/
theorem heartbeat_liveness_temporal :
    (∀ n, phase (runRounds (fun _ => true) n initConn) = .alive) ∧
    heartbeatRound false initConn = ({ initConn with isAlive := false }, [Effect.probe]) ∧
    phase (runRounds (fun _ => false) 1 initConn) = .alive ∧
    runRounds (fun _ => false) 2 initConn =
      { readyState := WS_CLOSED, isAlive := false, pingTimerArmed := false } ∧
    (∀ n, 2 ≤ n →
       runRounds (fun _ => false) n initConn =
         { readyState := WS_CLOSED, isAlive := false, pingTimerArmed := false } ∧
       (runRounds (fun _ => false) n initConn).pingTimerArmed = false) := by
  refine ⟨?_, rfl, rfl, rfl, ?_⟩
  · intro n
    rcases runRounds_allAck n with h | h <;> rw [h] <;> rfl
  · intro n hn
    obtain ⟨k, rfl⟩ : ∃ k, n = 2 + k := ⟨n - 2, by omega⟩
    exact ⟨runRounds_noAck_dead k, by rw [runRounds_noAck_dead k]⟩

/-- Witness for C2: the all-acknowledged and never-acknowledged runs
evaluated at three rounds. -/
theorem heartbeat_liveness_temporal_witness :
    phase (runRounds (fun _ => true) 3 initConn) = .alive ∧
    runRounds (fun _ => false) 3 initConn =
      { readyState := WS_CLOSED, isAlive := false, pingTimerArmed := false } :=
  ⟨heartbeat_liveness_temporal.1 3,
   (heartbeat_liveness_temporal.2.2.2.2 3 (by decide)).1⟩
